import Mathlib

/-!
Verification development for the OpenASVG timeline engine
(`src/js/openasvg.js`).  The JavaScript source is shallowly embedded:
JavaScript numbers are modelled as exact rationals extended with the
IEEE special values `Infinity`, `-Infinity` and `NaN` (the floating
point values reachable in the claims are dyadic rationals, so the
rational model is an exact idealization of the double arithmetic the
code performs), stateful methods become explicit state-passing
functions, and DOM side effects (`setAttribute`) become returned lists
of written values.
-/

/-- Truncation toward zero on rationals, mirroring the rounding used by
the JavaScript remainder operator `%`. -/
def ratTrunc (q : ℚ) : ℤ :=
  if 0 ≤ q then ⌊q⌋ else ⌈q⌉

/-- A JavaScript number: a finite (rational) value or one of the IEEE
special values.  Negative zero is not modelled; no value reachable in
the embedded code distinguishes it. -/
inductive JSNum : Type where
  | fin (q : ℚ) : JSNum
  | posInf : JSNum
  | negInf : JSNum
  | nan : JSNum
deriving DecidableEq, Repr

namespace JSNum

/-- JavaScript addition. -/
def add : JSNum → JSNum → JSNum
  | nan, _ => nan
  | _, nan => nan
  | fin a, fin b => fin (a + b)
  | fin _, posInf => posInf
  | posInf, fin _ => posInf
  | fin _, negInf => negInf
  | negInf, fin _ => negInf
  | posInf, posInf => posInf
  | negInf, negInf => negInf
  | posInf, negInf => nan
  | negInf, posInf => nan

/-- JavaScript negation. -/
def neg : JSNum → JSNum
  | fin a => fin (-a)
  | posInf => negInf
  | negInf => posInf
  | nan => nan

/-- JavaScript subtraction. -/
def sub (a b : JSNum) : JSNum := add a (neg b)

/-- JavaScript multiplication. -/
def mul : JSNum → JSNum → JSNum
  | nan, _ => nan
  | _, nan => nan
  | fin a, fin b => fin (a * b)
  | fin a, posInf => if a = 0 then nan else if 0 < a then posInf else negInf
  | posInf, fin a => if a = 0 then nan else if 0 < a then posInf else negInf
  | fin a, negInf => if a = 0 then nan else if 0 < a then negInf else posInf
  | negInf, fin a => if a = 0 then nan else if 0 < a then negInf else posInf
  | posInf, posInf => posInf
  | posInf, negInf => negInf
  | negInf, posInf => negInf
  | negInf, negInf => posInf

/-- JavaScript division; division by (positive) zero yields a signed
infinity and `0/0` yields `NaN`. -/
def div : JSNum → JSNum → JSNum
  | nan, _ => nan
  | _, nan => nan
  | fin a, fin b =>
      if b = 0 then (if a = 0 then nan else if 0 < a then posInf else negInf)
      else fin (a / b)
  | fin _, posInf => fin 0
  | fin _, negInf => fin 0
  | posInf, fin b => if 0 ≤ b then posInf else negInf
  | negInf, fin b => if 0 ≤ b then negInf else posInf
  | posInf, posInf => nan
  | posInf, negInf => nan
  | negInf, posInf => nan
  | negInf, negInf => nan

/-- JavaScript `Math.floor`. -/
def floor : JSNum → JSNum
  | fin q => fin (⌊q⌋ : ℤ)
  | posInf => posInf
  | negInf => negInf
  | nan => nan

/-- JavaScript `Math.abs`. -/
def abs : JSNum → JSNum
  | fin q => fin |q|
  | posInf => posInf
  | negInf => posInf
  | nan => nan

/-- JavaScript remainder `%` (sign of the dividend, truncated
division); any zero divisor or non-finite dividend yields `NaN`, and a
finite value modulo an infinity is the dividend itself. -/
def mod : JSNum → JSNum → JSNum
  | nan, _ => nan
  | _, nan => nan
  | fin a, fin b => if b = 0 then nan else fin (a - b * (ratTrunc (a / b) : ℚ))
  | fin a, posInf => fin a
  | fin a, negInf => fin a
  | posInf, _ => nan
  | negInf, _ => nan

/-- JavaScript `<` as a boolean (every comparison with `NaN` is
false). -/
def lt : JSNum → JSNum → Bool
  | nan, _ => false
  | _, nan => false
  | fin a, fin b => decide (a < b)
  | fin _, posInf => true
  | fin _, negInf => false
  | posInf, _ => false
  | negInf, negInf => false
  | negInf, _ => true

/-- JavaScript `<=` as a boolean (every comparison with `NaN` is
false). -/
def le : JSNum → JSNum → Bool
  | nan, _ => false
  | _, nan => false
  | fin a, fin b => decide (a ≤ b)
  | fin _, posInf => true
  | fin _, negInf => false
  | posInf, posInf => true
  | posInf, _ => false
  | negInf, _ => true

/-- JavaScript `>` as a boolean. -/
def gt (a b : JSNum) : Bool := lt b a

/-- JavaScript `>=` as a boolean. -/
def ge (a b : JSNum) : Bool := le b a

/-- JavaScript strict equality `===` on numbers (`NaN === NaN` is
false). -/
def eqb : JSNum → JSNum → Bool
  | nan, _ => false
  | _, nan => false
  | fin a, fin b => decide (a = b)
  | posInf, posInf => true
  | negInf, negInf => true
  | _, _ => false

instance : Add JSNum := ⟨add⟩
instance : Sub JSNum := ⟨sub⟩
instance : Mul JSNum := ⟨mul⟩
instance : Neg JSNum := ⟨neg⟩

@[simp] theorem add_eq (a b : JSNum) : a + b = add a b := rfl

@[simp] theorem sub_eq (a b : JSNum) : a - b = sub a b := rfl

@[simp] theorem mul_eq (a b : JSNum) : a * b = mul a b := rfl

@[simp] theorem neg_eq (a : JSNum) : -a = neg a := rfl

end JSNum

/-- A parsed `<animate>` leaf, as produced by `parseAnimate`
(src lines 185-210).  String attribute values that the update path
feeds through `parseFloat` are embedded post-parse: `fromVal`, `toVal`
and `byVal` are the parsed numbers (`none` encodes an absent/falsy
attribute).  `repeatN` is the parsed repeat count: `parseInt` of the
attribute, or `Infinity` for `repeat="infinite"` (so `NaN` when the
attribute does not parse). -/
structure AnimateLeaf where
  target : String
  attr : String
  fromVal : Option ℚ
  toVal : Option ℚ
  byVal : Option ℚ
  start : ℚ
  duration : ℚ
  easing : String
  repeatN : JSNum
  reverse : Bool
  fill : String
  idOpt : Option String
deriving DecidableEq, Repr

/-- Embedding of `calculateProgress` (src lines 615-629).  The return
value is the raw JavaScript number the method returns: `-1` as the
"not started" sentinel, `2` as the "finished" sentinel, otherwise the
(possibly `NaN`) progress value.  The divisions are performed with
JavaScript semantics, so a zero `duration` produces `Infinity` or
`NaN` exactly as in the source. -/
def calculateProgress (anim : AnimateLeaf) (time : ℚ) : JSNum :=
  let relativeTime := time - anim.start
  if relativeTime < 0 then JSNum.fin (-1)
  else
    let iterations := (JSNum.div (JSNum.fin relativeTime) (JSNum.fin anim.duration)).floor
    if JSNum.ge iterations anim.repeatN then JSNum.fin 2
    else
      let progress :=
        JSNum.div (JSNum.mod (JSNum.fin relativeTime) (JSNum.fin anim.duration))
          (JSNum.fin anim.duration)
      if anim.reverse && JSNum.eqb (JSNum.mod iterations (JSNum.fin 2)) (JSNum.fin 1) then
        JSNum.fin 1 - progress
      else progress

/-- The Newton-Raphson loop of `cubicBezier` (src lines 700-710):
`for (let i = 0; i < 4; i++)` with two early exits, one when the
current X error is below `0.001` in magnitude and one when the local
derivative magnitude is below `0.00001`.  `fuel` is the number of loop
iterations remaining (the source starts it at 4). -/
def newtonLoop (ax bx cx t : JSNum) : ℕ → JSNum → JSNum
  | 0, x => x
  | fuel + 1, x =>
      let currentX := ((ax * x + bx) * x + cx) * x - t
      if (JSNum.abs currentX).lt (JSNum.fin (1/1000)) then x
      else
        let currentSlope := (JSNum.fin 3 * ax * x + JSNum.fin 2 * bx) * x + cx
        if (JSNum.abs currentSlope).lt (JSNum.fin (1/100000)) then x
        else newtonLoop ax bx cx t fuel (x - JSNum.div currentX currentSlope)

/-- Embedding of `cubicBezier(x1, y1, x2, y2, t)` (src lines 687-713):
the polynomial coefficients, the Newton-Raphson solve for the bezier
parameter whose X coordinate matches `t` (seeded at `x = t`, at most 4
iterations), and the final evaluation of the Y polynomial at the
solved parameter. -/
def cubicBezier (x1 y1 x2 y2 t : JSNum) : JSNum :=
  let cx := JSNum.fin 3 * x1
  let bx := JSNum.fin 3 * (x2 - x1) - cx
  let ax := JSNum.fin 1 - cx - bx
  let cy := JSNum.fin 3 * y1
  let byCoef := JSNum.fin 3 * (y2 - y1) - cy
  let ay := JSNum.fin 1 - cy - byCoef
  let x := newtonLoop ax bx cx t 4 t
  ((ay * x + byCoef) * x + cy) * x

/-- The `bounce` easing (src lines 653-660): four-segment piecewise
quadratic with `n1 = 7.5625` and `d1 = 2.75`, evaluated with
JavaScript comparison semantics (so a `NaN` input falls through every
branch into the last segment). -/
def bounceFn (t : JSNum) : JSNum :=
  let n1 := JSNum.fin (121/16)
  let d1 := JSNum.fin (11/4)
  if t.lt (JSNum.div (JSNum.fin 1) d1) then n1 * t * t
  else if t.lt (JSNum.div (JSNum.fin 2) d1) then
    let t' := t - JSNum.div (JSNum.fin (3/2)) d1
    n1 * t' * t' + JSNum.fin (3/4)
  else if t.lt (JSNum.div (JSNum.fin (5/2)) d1) then
    let t' := t - JSNum.div (JSNum.fin (9/4)) d1
    n1 * t' * t' + JSNum.fin (15/16)
  else
    let t' := t - JSNum.div (JSNum.fin (21/8)) d1
    n1 * t' * t' + JSNum.fin (63/64)

/-- The `elastic` easing (src lines 661-665): the two exact boundary
ternaries are embedded directly; the transcendental body
`2^(-10 t) * sin((10 t - 0.75) * 2π/3) + 1` has no rational value, so
it is supplied as the parameter `elasticCore` (the claims never
evaluate it).  A non-finite input makes the JavaScript body evaluate
to `NaN` (`sin` of an infinity is `NaN`). -/
def elasticFn (elasticCore : ℚ → ℚ) (t : JSNum) : JSNum :=
  if JSNum.eqb t (JSNum.fin 0) then JSNum.fin 0
  else if JSNum.eqb t (JSNum.fin 1) then JSNum.fin 1
  else
    match t with
    | JSNum.fin q => JSNum.fin (elasticCore q)
    | _ => JSNum.nan

/-- Numeric value of a list of decimal digit characters. -/
def digitsVal (cs : List Char) : ℕ :=
  cs.foldl (fun n c => 10 * n + (c.toNat - '0'.toNat)) 0

/-- JavaScript `parseFloat` restricted to the strings the
`cubic-bezier` regular expression can capture (matches of `[\d.]+`):
an optional run of digits, an optional dot, and a fractional digit
run; a string with no digit before the first dot and none after it
parses to `NaN`, and anything after a second dot is ignored, exactly
as `parseFloat` does on such inputs. -/
def parseFloatDigits (cs : List Char) : JSNum :=
  let ip := cs.takeWhile Char.isDigit
  let rest := cs.drop ip.length
  match rest with
  | '.' :: rest2 =>
      let fp := rest2.takeWhile Char.isDigit
      if ip.isEmpty && fp.isEmpty then JSNum.nan
      else JSNum.fin ((digitsVal ip : ℚ) + (digitsVal fp : ℚ) / (10 ^ fp.length : ℚ))
  | _ => if ip.isEmpty then JSNum.nan else JSNum.fin (digitsVal ip : ℚ)

/-- Strips `pat` from the front of `cs`, returning the remainder when
`cs` starts with `pat`. -/
def stripChars : List Char → List Char → Option (List Char)
  | [], rest => some rest
  | _ :: _, [] => none
  | p :: ps, c :: cs => if c = p then stripChars ps cs else none

/-- The ECMAScript character class `\s`: the WhiteSpace production
(TAB, VT, FF, SP, NBSP, ZWNBSP and the Unicode Space_Separator
category — U+1680, U+2000..U+200A, U+202F, U+205F, U+3000) together
with the LineTerminator production (LF, CR, LS U+2028, PS U+2029). -/
def isSpaceChar (c : Char) : Bool :=
  c = ' ' || c = '\t' || c = '\n' || c = '\r' ||
  c.toNat = 0x0B || c.toNat = 0x0C || c.toNat = 0xA0 || c.toNat = 0xFEFF ||
  c.toNat = 0x1680 || (0x2000 ≤ c.toNat && c.toNat ≤ 0x200A) ||
  c.toNat = 0x2028 || c.toNat = 0x2029 || c.toNat = 0x202F || c.toNat = 0x205F ||
  c.toNat = 0x3000

/-- Takes one `[\d.]+` capture group: the maximal nonempty run of
digits and dots. -/
def takeGroup (cs : List Char) : Option (List Char × List Char) :=
  let g := cs.takeWhile (fun c => c.isDigit || c = '.')
  if g.isEmpty then none else some (g, cs.drop g.length)

/-- Matches the tail of the `cubic-bezier` regular expression
(src line 673) after the literal `cubic-bezier(` has been consumed:
`([\d.]+),\s*([\d.]+),\s*([\d.]+),\s*([\d.]+)\)`, returning the four
captured groups passed through `parseFloat`. -/
def parseBezierArgs (cs : List Char) : Option (JSNum × JSNum × JSNum × JSNum) := do
  let (g1, r1) ← takeGroup cs
  let r2 ← stripChars [','] r1
  let (g2, r3) ← takeGroup (r2.dropWhile isSpaceChar)
  let r4 ← stripChars [','] r3
  let (g3, r5) ← takeGroup (r4.dropWhile isSpaceChar)
  let r6 ← stripChars [','] r5
  let (g4, r7) ← takeGroup (r6.dropWhile isSpaceChar)
  let _ ← stripChars [')'] r7
  pure (parseFloatDigits g1, parseFloatDigits g2, parseFloatDigits g3, parseFloatDigits g4)

/-- Embedding of `easing.match(/cubic-bezier\(...\)/)` (src line 673):
the pattern is unanchored, so the scan tries every start position from
left to right, exactly as the regular expression engine does. -/
def scanBezier : List Char → Option (JSNum × JSNum × JSNum × JSNum)
  | [] => none
  | c :: cs =>
      match stripChars "cubic-bezier(".data (c :: cs) with
      | some rest =>
          match parseBezierArgs rest with
          | some r => some r
          | none => scanBezier cs
      | none => scanBezier cs

/-- The property names the `easings` object literal inherits from
`Object.prototype`.  The bracket lookup `easings[easing]` traverses
the prototype chain, so each of these names yields a truthy value and
the source invokes it instead of reaching the `cubic-bezier` parse or
the identity fallback. -/
def objectProtoMembers : List String :=
  ["constructor", "hasOwnProperty", "isPrototypeOf", "propertyIsEnumerable",
   "toLocaleString", "toString", "valueOf", "__proto__",
   "__defineGetter__", "__defineSetter__", "__lookupGetter__", "__lookupSetter__"]

/-- A JavaScript value that `easings[easing](t)` can evaluate to: a
number from a real easing function; the string `"[object Object]"`
from `toString`/`toLocaleString`; a boolean from `hasOwnProperty`,
`isPrototypeOf` or `propertyIsEnumerable`; `undefined` from
`__lookupGetter__`/`__lookupSetter__`; the `easings` table itself
from `valueOf`; or a `Number` wrapper object from `constructor`
(which is `Object`). -/
inductive JSVal : Type where
  | num (v : JSNum) : JSVal
  | str (s : String) : JSVal
  | boolVal (b : Bool) : JSVal
  | undef : JSVal
  | objectVal : JSVal
  | numberWrapper (v : JSNum) : JSVal
deriving DecidableEq, Repr

/-- The `ToNumber` coercion the multiplication
`(to - from) * easedProgress` performs on an eased value: numbers pass
through, `false`/`true` become `0`/`1`, `undefined` becomes `NaN`, a
`Number` wrapper unwraps, and an object coerces through its string
form.  The only string this dispatch can produce is
`"[object Object]"`, which is not a numeric literal, so a string (and
likewise the plain-object value, which stringifies to the same text)
coerces to `NaN`. -/
def JSVal.toNumber : JSVal → JSNum
  | JSVal.num v => v
  | JSVal.str _ => JSNum.nan
  | JSVal.boolVal b => if b then JSNum.fin 1 else JSNum.fin 0
  | JSVal.undef => JSNum.nan
  | JSVal.objectVal => JSNum.nan
  | JSVal.numberWrapper v => v

/-- Embedding of `applyEasing(t, easing)` (src lines 645-685).  The
dispatch `if (easings[easing]) return easings[easing](t)` is a bracket
lookup on an object literal and traverses the prototype chain: the
seven own keys select the easing functions, and a string naming an
inherited `Object.prototype` member is truthy and gets invoked —
`__proto__` (an accessor yielding a non-callable object) and
`__defineGetter__`/`__defineSetter__` (called with an undefined
accessor argument) throw a `TypeError`; `toString`/`toLocaleString`
return `"[object Object]"`; `hasOwnProperty`, `isPrototypeOf` and
`propertyIsEnumerable` return `false` (the stringified numeric
argument is never an own key of the table and a number is not an
object); `valueOf` returns the table itself; `constructor` is
`Object` and wraps the argument; `__lookupGetter__`/`__lookupSetter__`
return `undefined`.  Only when the lookup misses entirely does control
reach the `cubic-bezier(...)` parse and the identity fallback
`return t`.  `elasticCore` stands for the transcendental body of the
`elastic` curve (see `elasticFn`). -/
def applyEasing (elasticCore : ℚ → ℚ) (t : JSNum) (easing : String) :
    Except String JSVal :=
  if easing = "linear" then Except.ok (JSVal.num t)
  else if easing = "ease" then
    Except.ok (JSVal.num
      (cubicBezier (JSNum.fin (1/4)) (JSNum.fin (1/10)) (JSNum.fin (1/4)) (JSNum.fin 1) t))
  else if easing = "ease-in" then
    Except.ok (JSVal.num
      (cubicBezier (JSNum.fin (21/50)) (JSNum.fin 0) (JSNum.fin 1) (JSNum.fin 1) t))
  else if easing = "ease-out" then
    Except.ok (JSVal.num
      (cubicBezier (JSNum.fin 0) (JSNum.fin 0) (JSNum.fin (29/50)) (JSNum.fin 1) t))
  else if easing = "ease-in-out" then
    Except.ok (JSVal.num
      (cubicBezier (JSNum.fin (21/50)) (JSNum.fin 0) (JSNum.fin (29/50)) (JSNum.fin 1) t))
  else if easing = "bounce" then Except.ok (JSVal.num (bounceFn t))
  else if easing = "elastic" then Except.ok (JSVal.num (elasticFn elasticCore t))
  else if easing = "constructor" then Except.ok (JSVal.numberWrapper t)
  else if easing = "hasOwnProperty" then Except.ok (JSVal.boolVal false)
  else if easing = "isPrototypeOf" then Except.ok (JSVal.boolVal false)
  else if easing = "propertyIsEnumerable" then Except.ok (JSVal.boolVal false)
  else if easing = "toLocaleString" then Except.ok (JSVal.str "[object Object]")
  else if easing = "toString" then Except.ok (JSVal.str "[object Object]")
  else if easing = "valueOf" then Except.ok JSVal.objectVal
  else if easing = "__proto__" then Except.error "TypeError"
  else if easing = "__defineGetter__" then Except.error "TypeError"
  else if easing = "__defineSetter__" then Except.error "TypeError"
  else if easing = "__lookupGetter__" then Except.ok JSVal.undef
  else if easing = "__lookupSetter__" then Except.ok JSVal.undef
  else
    match scanBezier easing.data with
    | some (x1, y1, x2, y2) => Except.ok (JSVal.num (cubicBezier x1 y1 x2 y2 t))
    | none => Except.ok (JSVal.num t)

/-- A resolved target handle as seen by `updateAnimate`: the only
observable the method reads is the current value of the animated
attribute (`target.getAttribute(anim.attribute)`), embedded post-
`parseFloat`; `none` encodes an absent or empty attribute, which the
source's `|| 0` turns into `0`. -/
structure TargetH where
  attrVal : Option ℚ
deriving DecidableEq, Repr

/-- Embedding of `updateAnimate(anim, time)` (src lines 494-510).  The
resolved target list is passed in (the source obtains it from
`getTargets`).  `Except.ok` carries the sequence of values written via
`target.setAttribute(anim.attribute, value)`, one per target (the
empty list means the method performed no attribute write);
`Except.error` is a `TypeError` thrown by the easing dispatch, which
escapes the method before any write.  The `ToNumber` coercion that the
multiplication `(to - from) * easedProgress` performs on a non-number
eased value is applied once up front (`JSVal.toNumber`); it is the
same for every target. -/
def updateAnimate (elasticCore : ℚ → ℚ) (anim : AnimateLeaf) (time : ℚ)
    (targets : List TargetH) : Except String (List JSNum) :=
  if targets.isEmpty then Except.ok []
  else
    let progress := calculateProgress anim time
    if progress.lt (JSNum.fin 0) || progress.gt (JSNum.fin 1) then Except.ok []
    else
      match applyEasing elasticCore progress anim.easing with
      | Except.error e => Except.error e
      | Except.ok eased =>
          let easedProgress := eased.toNumber
          Except.ok (targets.map (fun target =>
            let fromV := JSNum.fin (anim.fromVal.getD (target.attrVal.getD 0))
            let toV := match anim.toVal with
              | some q => JSNum.fin q
              | none => fromV
            fromV + (toV - fromV) * easedProgress))

/-- The playback-relevant slice of the engine instance state: the
fields of `this.state` read or written by the clock methods, the
`loop` option, and the private clock origin `this._startTime`
(milliseconds of `performance.now()`). -/
structure EngineState where
  playing : Bool
  currentTime : ℚ
  duration : ℚ
  playbackRate : ℚ
  loopOpt : Bool
  startTime : ℚ
deriving DecidableEq, Repr

/-- Embedding of `seek(time)` (src lines 426-431): clamp the requested
time into `[0, duration]`, store it, and re-anchor `_startTime` to
`now - currentTime * 1000`.  The synchronous `updateAnimations` flush
and the `seek` event touch only the output sink and the event stream,
not the fields modelled here. -/
def seek (s : EngineState) (now : ℚ) (time : ℚ) : EngineState :=
  let ct := max 0 (min time s.duration)
  { s with currentTime := ct, startTime := now - ct * 1000 }

/-- Embedding of `set playbackRate(rate)` (src lines 911-913): the
setter assigns `this.state.playbackRate = rate` and nothing else. -/
def setPlaybackRate (s : EngineState) (rate : ℚ) : EngineState :=
  { s with playbackRate := rate }

/-- Result of one `animate()` tick: the engine state after the call,
the events emitted during it in order, the fault (if any) that
propagated out of the callback uncaught, and whether a next tick was
scheduled via `requestAnimationFrame`. -/
structure TickResult where
  state : EngineState
  events : List String
  fault : Option String
  scheduled : Bool
deriving DecidableEq, Repr

/-- The tail of `animate()` from the `updateAnimations` call on
(src lines 454-457).  `update` abstracts `updateAnimations(time)`
together with everything it calls: `some f` means that evaluating the
timeline at that time threw the fault `f`.  There is no `try`/`catch`
anywhere on this path, so a thrown fault skips the `update` event and
the `requestAnimationFrame` call and escapes the tick. -/
def runUpdate (s : EngineState) (update : ℚ → Option String) : TickResult :=
  match update s.currentTime with
  | some f => { state := s, events := [], fault := some f, scheduled := false }
  | none => { state := s, events := ["update"], fault := none, scheduled := true }

/-- Embedding of the `animate()` tick (src lines 434-458): recompute
`currentTime` as `(now - _startTime) / 1000 * playbackRate`; at or
past the total duration either wrap (loop) or clamp, `pause()` (which
emits `pause`) and emit `end`; otherwise run the per-tick update and
reschedule. -/
def animate (s : EngineState) (now : ℚ) (update : ℚ → Option String) : TickResult :=
  if s.playing = false then { state := s, events := [], fault := none, scheduled := false }
  else
    let elapsed := (now - s.startTime) / 1000 * s.playbackRate
    let s1 := { s with currentTime := elapsed }
    if s1.currentTime ≥ s1.duration then
      if s1.loopOpt then
        runUpdate { s1 with currentTime := 0, startTime := now } update
      else
        { state := { s1 with currentTime := s1.duration, playing := false },
          events := ["pause", "end"], fault := none, scheduled := false }
    else runUpdate s1 update

/-- The resolver-relevant slice of the engine instance state:
`this.svgContent` (the document surrogate, a selector-to-handles
query function; handles are opaque and modelled as naturals) and
`this.targetCache` (a `Map` keyed by selector string, modelled as an
association list with most recent insertion first). -/
structure ResolverState where
  svgContent : Option (String → List ℕ)
  targetCache : List (String × List ℕ)

/-- Lookup in the modelled `Map` (`targetCache.has`/`targetCache.get`). -/
def cacheLookup : List (String × List ℕ) → String → Option (List ℕ)
  | [], _ => none
  | (k, v) :: rest, sel => if k = sel then some v else cacheLookup rest sel

/-- Embedding of `getTargets(selector)` (src lines 631-643): a falsy
(empty) selector or a missing document resolves to `[]` without
touching the cache; a cached selector returns the cached list
unchanged; otherwise the document is queried and the result list is
stored in the cache. -/
def getTargets (s : ResolverState) (selector : String) : List ℕ × ResolverState :=
  if selector = "" then ([], s)
  else
    match s.svgContent with
    | none => ([], s)
    | some doc =>
        match cacheLookup s.targetCache selector with
        | some targets => (targets, s)
        | none =>
            let targets := doc selector
            (targets, { s with targetCache := (selector, targets) :: s.targetCache })

/-- The resolver-relevant slice of `parseElement(element)`
(src lines 76-147), which rebuilds the engine from a new document:
among the fields modelled in `ResolverState` it replaces
`this.svgContent` with the freshly parsed document and leaves
`this.targetCache` untouched — no statement of `parseElement` (nor of
`setState`, src lines 799-814) reads or clears the cache; the only
method that clears it is `destroy()` (src line 930). -/
def parseElementDoc (s : ResolverState) (newDoc : String → List ℕ) : ResolverState :=
  { s with svgContent := some newDoc }

mutual
/-- An animation node of the parsed timeline tree: a leaf (the
kind-specific parameters beyond start/duration/repeat live in
`AnimateLeaf`; the other leaf kinds share the fields the duration
calculator reads) or a group (`sequence`, `parallel`, `animate-set`)
with its ordered children.  The parse-time stored group fields
(`id`, the group's own computed duration) are omitted: no function
modelled here reads them. -/
inductive Anim : Type where
  | leaf : AnimateLeaf → Anim
  | seqG : AnimList → Anim
  | parG : AnimList → Anim
  | setG : AnimList → Anim

/-- An ordered child list of a group node (the source's `animations`
array). -/
inductive AnimList : Type where
  | nil : AnimList
  | cons : Anim → AnimList → AnimList
end

/-- The iteration count `calculateDuration` charges a leaf for
(src line 384): `(anim.repeat === Infinity || anim.repeat ===
'infinite') ? 1 : parseInt(anim.repeat) || 1`.  An unbounded repeat
contributes exactly one iteration; `parseInt` of `NaN`, of a negative
infinity or of `0` falls through `|| 1` to `1`. -/
def effIters : JSNum → ℚ
  | JSNum.posInf => 1
  | JSNum.fin q => if q = 0 then 1 else q
  | JSNum.nan => 1
  | JSNum.negInf => 1

mutual
/-- Embedding of the inner `calcAnimDuration(anim)` closure of
`calculateDuration` (src lines 370-388).  The mutable outer variable
`maxEnd` is threaded explicitly: the result is the pair of the value
the closure returns and the updated `maxEnd`. -/
def calcAnimDuration : Anim → ℚ → ℚ × ℚ
  | Anim.leaf a, maxEnd =>
      let iterations := effIters a.repeatN
      let animDuration := a.duration * iterations
      (animDuration, max maxEnd (a.start + animDuration))
  | Anim.seqG cs, maxEnd => calcChildren true cs 0 maxEnd
  | Anim.parG cs, maxEnd => calcChildren false cs 0 maxEnd
  | Anim.setG cs, maxEnd => calcChildren false cs 0 maxEnd

/-- The `anim.animations.forEach` loop of `calcAnimDuration`
(src lines 372-380): `seqDuration` starts at `0` and either
accumulates (`sequence`) or maximizes (`parallel`/`animate-set`) the
children's computed durations, while `maxEnd` is threaded through the
recursive calls. -/
def calcChildren : Bool → AnimList → ℚ → ℚ → ℚ × ℚ
  | _, AnimList.nil, seqDuration, maxEnd => (seqDuration, maxEnd)
  | isSeq, AnimList.cons c cs, seqDuration, maxEnd =>
      let r := calcAnimDuration c maxEnd
      calcChildren isSeq cs (if isSeq then seqDuration + r.1 else max seqDuration r.1) r.2
end

/-- The `this.timeline.forEach(anim => calcAnimDuration(anim))` loop
of `calculateDuration` (src lines 390-392): only the `maxEnd`
accumulation survives. -/
def calcTimeline : AnimList → ℚ → ℚ
  | AnimList.nil, maxEnd => maxEnd
  | AnimList.cons a rest, maxEnd => calcTimeline rest (calcAnimDuration a maxEnd).2

/-- Embedding of `calculateDuration()` (src lines 367-395):
`maxEnd` starts at `0`, every root node is traversed, and the result
is `this.options.duration || maxEnd`.  `overrideDur` is
`options.duration`, which `parseElement` sets to `parseTime` of the
root `duration` attribute — `0` both for an absent attribute and for
an explicit `"0s"`, so `0` is exactly the falsy case of `||`. -/
def calculateDuration (timeline : AnimList) (overrideDur : ℚ) : ℚ :=
  let maxEnd := calcTimeline timeline 0
  if overrideDur = 0 then maxEnd else overrideDur

mutual
/-- Specification-side list of leaf end times `start + duration ×
effective iteration count`, one per leaf of the tree in traversal
order (the quantity §3 of the spec maximizes over all leaves). -/
def leafEnds : Anim → List ℚ
  | Anim.leaf a => [a.start + a.duration * effIters a.repeatN]
  | Anim.seqG cs => leafEndsList cs
  | Anim.parG cs => leafEndsList cs
  | Anim.setG cs => leafEndsList cs

/-- Leaf end times of a child list, in order. -/
def leafEndsList : AnimList → List ℚ
  | AnimList.nil => []
  | AnimList.cons a rest => leafEnds a ++ leafEndsList rest
end

/-- Leaf end times of every root of a timeline, in order. -/
def timelineLeafEnds : AnimList → List ℚ
  | AnimList.nil => []
  | AnimList.cons a rest => leafEnds a ++ timelineLeafEnds rest

/-- The duration the calculator assigns to one node, independent of
the ambient `maxEnd` accumulator. -/
def durOf (a : Anim) : ℚ := (calcAnimDuration a 0).1

/-- The computed durations of a child list, in order. -/
def durList : AnimList → List ℚ
  | AnimList.nil => []
  | AnimList.cons c cs => durOf c :: durList cs

mutual
/-- The duration component returned by `calcAnimDuration` does not
depend on the ambient `maxEnd` accumulator. -/
theorem calcAnimDuration_fst_irrel : ∀ (a : Anim) (m m' : ℚ),
    (calcAnimDuration a m).1 = (calcAnimDuration a m').1
  | Anim.leaf _, _, _ => rfl
  | Anim.seqG cs, m, m' => calcChildren_fst_irrel true cs 0 m m'
  | Anim.parG cs, m, m' => calcChildren_fst_irrel false cs 0 m m'
  | Anim.setG cs, m, m' => calcChildren_fst_irrel false cs 0 m m'

/-- The duration component returned by the children loop does not
depend on the ambient `maxEnd` accumulator. -/
theorem calcChildren_fst_irrel : ∀ (b : Bool) (cs : AnimList) (acc m m' : ℚ),
    (calcChildren b cs acc m).1 = (calcChildren b cs acc m').1
  | _, AnimList.nil, _, _, _ => rfl
  | b, AnimList.cons c cs, acc, m, m' => by
      simp only [calcChildren]
      rw [calcAnimDuration_fst_irrel c m m']
      exact calcChildren_fst_irrel b cs _ _ _
end

/-- Every node's computed duration equals `durOf`. -/
theorem calcAnimDuration_fst (a : Anim) (m : ℚ) : (calcAnimDuration a m).1 = durOf a :=
  calcAnimDuration_fst_irrel a m 0

/-- The sequence children loop accumulates the sum of the children's
computed durations. -/
theorem calcChildren_fst_seq : ∀ (cs : AnimList) (acc m : ℚ),
    (calcChildren true cs acc m).1 = acc + (durList cs).sum
  | AnimList.nil, acc, _ => by simp [calcChildren, durList]
  | AnimList.cons c cs, acc, m => by
      simp only [calcChildren, durList, List.sum_cons]
      rw [calcAnimDuration_fst c m, calcChildren_fst_seq cs _ _]
      simp
      ring

/-- The parallel/set children loop accumulates the maximum of the
children's computed durations. -/
theorem calcChildren_fst_par : ∀ (cs : AnimList) (acc m : ℚ),
    (calcChildren false cs acc m).1 = (durList cs).foldl max acc
  | AnimList.nil, _, _ => by simp [calcChildren, durList]
  | AnimList.cons c cs, acc, m => by
      simp only [calcChildren, durList, List.foldl_cons, Bool.false_eq_true, if_neg]
      rw [calcAnimDuration_fst c m, calcChildren_fst_par cs _ _]
      simp

mutual
/-- The `maxEnd` accumulator after one node is the running maximum of
the node's leaf end times. -/
theorem calcAnimDuration_snd : ∀ (a : Anim) (m : ℚ),
    (calcAnimDuration a m).2 = (leafEnds a).foldl max m
  | Anim.leaf _, _ => by simp [calcAnimDuration, leafEnds]
  | Anim.seqG cs, m => calcChildren_snd true cs 0 m
  | Anim.parG cs, m => calcChildren_snd false cs 0 m
  | Anim.setG cs, m => calcChildren_snd false cs 0 m

/-- The `maxEnd` accumulator after a child list is the running maximum
of the children's leaf end times. -/
theorem calcChildren_snd : ∀ (b : Bool) (cs : AnimList) (acc m : ℚ),
    (calcChildren b cs acc m).2 = (leafEndsList cs).foldl max m
  | _, AnimList.nil, _, _ => by simp [calcChildren, leafEndsList]
  | b, AnimList.cons c cs, acc, m => by
      simp only [calcChildren, leafEndsList, List.foldl_append]
      rw [calcChildren_snd b cs _ _, calcAnimDuration_snd c m]
end

/-- The `maxEnd` accumulated over all timeline roots is the running
maximum of all leaf end times. -/
theorem calcTimeline_eq : ∀ (tl : AnimList) (m : ℚ),
    calcTimeline tl m = (timelineLeafEnds tl).foldl max m
  | AnimList.nil, _ => by simp [calcTimeline, timelineLeafEnds]
  | AnimList.cons a rest, m => by
      simp only [calcTimeline, timelineLeafEnds, List.foldl_append]
      rw [calcTimeline_eq rest _, calcAnimDuration_snd a m]

/-- A minimal `<animate>` leaf with a given duration, used for the
concrete duration examples. -/
def demoLeaf (d : ℚ) : AnimateLeaf :=
  { target := "#r", attr := "x", fromVal := some 0, toVal := some 1, byVal := none,
    start := 0, duration := d, easing := "linear", repeatN := JSNum.fin 1,
    reverse := false, fill := "none", idOpt := none }

/-- Children with durations `[1, 2, 3]`. -/
def demo123 : AnimList :=
  AnimList.cons (Anim.leaf (demoLeaf 1))
    (AnimList.cons (Anim.leaf (demoLeaf 2))
      (AnimList.cons (Anim.leaf (demoLeaf 3)) AnimList.nil))

/-- A timeline whose single root is a parallel group over `demo123`. -/
def demoTimeline : AnimList := AnimList.cons (Anim.parG demo123) AnimList.nil

/-- Claim C6: durations aggregate as sum over sequence children and
max over parallel/set children (children `[1,2,3]` give `6` and `3`
respectively), and the total timeline duration is the explicit
override when a (nonzero) one is given — `parseTime` maps an absent
root `duration` attribute to `0`, the falsy case of
`options.duration || maxEnd` — otherwise the maximum over all leaves
of `start + duration × effective iteration count`, where an unbounded
(`Infinity`) repeat contributes exactly one iteration. -/
theorem duration_aggregation (cs tl : AnimList) (ov m : ℚ) :
    (calcAnimDuration (Anim.seqG cs) m).1 = (durList cs).sum ∧
    (calcAnimDuration (Anim.parG cs) m).1 = (durList cs).foldl max 0 ∧
    (calcAnimDuration (Anim.setG cs) m).1 = (durList cs).foldl max 0 ∧
    (calcAnimDuration (Anim.seqG demo123) m).1 = 6 ∧
    (calcAnimDuration (Anim.parG demo123) m).1 = 3 ∧
    (ov ≠ 0 → calculateDuration tl ov = ov) ∧
    calculateDuration tl 0 = (timelineLeafEnds tl).foldl max 0 ∧
    effIters JSNum.posInf = 1 := by
  have hseq : ∀ (cs' : AnimList) (m' : ℚ),
      (calcAnimDuration (Anim.seqG cs') m').1 = (durList cs').sum := by
    intro cs' m'
    show (calcChildren true cs' 0 m').1 = (durList cs').sum
    rw [calcChildren_fst_seq]
    ring
  have hpar : ∀ (cs' : AnimList) (m' : ℚ),
      (calcAnimDuration (Anim.parG cs') m').1 = (durList cs').foldl max 0 := by
    intro cs' m'
    exact calcChildren_fst_par cs' 0 m'
  have hdemo : durList demo123 = [1, 2, 3] := by
    simp [demo123, durList, durOf, calcAnimDuration, demoLeaf, effIters]
  refine ⟨hseq cs m, hpar cs m, calcChildren_fst_par cs 0 m, ?_, ?_, ?_, ?_, rfl⟩
  · rw [hseq demo123 m, hdemo]; norm_num
  · rw [hpar demo123 m, hdemo]; norm_num
  · intro hov
    simp [calculateDuration, hov]
  · simp [calculateDuration, calcTimeline_eq]

/-- Witness for `duration_aggregation` at a concrete timeline and a
concrete nonzero override. -/
theorem duration_aggregation_witness : calculateDuration demoTimeline 5 = 5 :=
  (duration_aggregation AnimList.nil demoTimeline 5 0).2.2.2.2.2.1 (by norm_num)

/-- Claim C7: the arbitrary `cubic-bezier` easing solves for the
bezier parameter by the Newton-Raphson loop seeded at `x = t` with at
most 4 iterations, returning early when the X error magnitude is
below `0.001` or the derivative magnitude is below `0.00001`, and
evaluates the Y polynomial at the solved parameter; in particular for
control points `(0.25, 0.1, 0.25, 1)` the fixed points are exact:
the eased value at `t = 0` is `0` and at `t = 1` is `1`. -/
theorem cubicBezier_newton_properties :
    (∀ (ax bx cx t x : JSNum) (fuel : ℕ),
        (JSNum.abs (((ax * x + bx) * x + cx) * x - t)).lt (JSNum.fin (1/1000)) = true →
        newtonLoop ax bx cx t (fuel + 1) x = x) ∧
    (∀ (ax bx cx t x : JSNum) (fuel : ℕ),
        (JSNum.abs (((ax * x + bx) * x + cx) * x - t)).lt (JSNum.fin (1/1000)) = false →
        (JSNum.abs ((JSNum.fin 3 * ax * x + JSNum.fin 2 * bx) * x + cx)).lt
          (JSNum.fin (1/100000)) = true →
        newtonLoop ax bx cx t (fuel + 1) x = x) ∧
    cubicBezier (JSNum.fin (1/4)) (JSNum.fin (1/10)) (JSNum.fin (1/4)) (JSNum.fin 1)
      (JSNum.fin 0) = JSNum.fin 0 ∧
    cubicBezier (JSNum.fin (1/4)) (JSNum.fin (1/10)) (JSNum.fin (1/4)) (JSNum.fin 1)
      (JSNum.fin 1) = JSNum.fin 1 := by
  refine ⟨?_, ?_, ?_, ?_⟩
  · intro ax bx cx t x fuel h
    simp only [newtonLoop]
    rw [if_pos h]
  · intro ax bx cx t x fuel h1 h2
    simp only [JSNum.mul_eq, JSNum.add_eq, JSNum.sub_eq, JSNum.neg_eq, one_div] at h1 h2
    simp [newtonLoop, h1, h2]
  · norm_num [cubicBezier, newtonLoop, JSNum.abs, JSNum.lt, JSNum.div, JSNum.mul,
      JSNum.add, JSNum.sub, JSNum.neg]
  · norm_num [cubicBezier, newtonLoop, JSNum.abs, JSNum.lt, JSNum.div, JSNum.mul,
      JSNum.add, JSNum.sub, JSNum.neg]

/-- Witness for `cubicBezier_newton_properties`: the tolerance exit
taken at a concrete loop state. -/
theorem cubicBezier_newton_properties_witness :
    newtonLoop (JSNum.fin 1) (JSNum.fin 0) (JSNum.fin 0) (JSNum.fin 0) 4 (JSNum.fin 0) =
      JSNum.fin 0 :=
  cubicBezier_newton_properties.1 (JSNum.fin 1) (JSNum.fin 0) (JSNum.fin 0) (JSNum.fin 0)
    (JSNum.fin 0) 3
    (by norm_num [JSNum.abs, JSNum.lt, JSNum.mul, JSNum.add, JSNum.sub, JSNum.neg])

/-- Claim C9: `seek(t)` never changes the playing flag, the loop
option or the playback rate (nor the stored duration); it mutates only
`currentTime` (to the clamped time) and the clock origin
`_startTime`. -/
theorem seek_preserves_playback_flags (s : EngineState) (now t : ℚ) :
    (seek s now t).playing = s.playing ∧
    (seek s now t).loopOpt = s.loopOpt ∧
    (seek s now t).playbackRate = s.playbackRate ∧
    (seek s now t).duration = s.duration ∧
    (seek s now t).currentTime = max 0 (min t s.duration) ∧
    (seek s now t).startTime = now - max 0 (min t s.duration) * 1000 :=
  ⟨rfl, rfl, rfl, rfl, rfl, rfl⟩

/-- Claim C10 (counterexample): easing strings that are neither one
of the seven named curves nor anywhere contain a parseable
`cubic-bezier(...)` occurrence do not all fall back to the identity:
`"__proto__"` hits the inherited accessor, whose non-callable value is
invoked and a `TypeError` is thrown instead of returning `t`, and
`"toString"` returns the string `"[object Object]"`, not the input
fraction. -/
theorem applyEasing_proto_counterexample :
    scanBezier "__proto__".data = none ∧
    applyEasing (fun q => q) (JSNum.fin (1/2)) "__proto__" = Except.error "TypeError" ∧
    scanBezier "toString".data = none ∧
    applyEasing (fun q => q) (JSNum.fin (1/2)) "toString" =
      Except.ok (JSVal.str "[object Object]") ∧
    Except.ok (JSVal.str "[object Object]") ≠
      (Except.ok (JSVal.num (JSNum.fin (1/2))) : Except String JSVal) := by
  refine ⟨rfl, rfl, rfl, rfl, ?_⟩
  intro h
  exact JSVal.noConfusion (Except.ok.inj h)

/-- Claim C10 (amended): for every input fraction and every easing
string that is neither one of the seven named curves, nor one of the
`Object.prototype` member names the bracket lookup reaches through
the prototype chain, nor anywhere contains a parseable
`cubic-bezier(x1,y1,x2,y2)` occurrence, `applyEasing` returns the
input unchanged (the identity/linear fallback) and raises no error;
strings naming inherited members are instead invoked, where
`__proto__`, `__defineGetter__` and `__defineSetter__` throw a
`TypeError` and the others return the member's (non-easing) result. -/
theorem applyEasing_fallback_identity (elasticCore : ℚ → ℚ) (t : JSNum) (easing : String)
    (hname : easing ∉ (["linear", "ease", "ease-in", "ease-out", "ease-in-out",
      "bounce", "elastic"] : List String))
    (hproto : easing ∉ objectProtoMembers)
    (hbez : scanBezier easing.data = none) :
    applyEasing elasticCore t easing = Except.ok (JSVal.num t) := by
  simp only [List.mem_cons, List.mem_singleton, not_or] at hname
  simp only [objectProtoMembers, List.mem_cons, List.mem_singleton, not_or] at hproto
  obtain ⟨h1, h2, h3, h4, h5, h6, h7, -⟩ := hname
  obtain ⟨p1, p2, p3, p4, p5, p6, p7, p8, p9, p10, p11, p12, -⟩ := hproto
  simp [applyEasing, h1, h2, h3, h4, h5, h6, h7, p1, p2, p3, p4, p5, p6, p7, p8, p9,
    p10, p11, p12, hbez]

/-- Witness for `applyEasing_fallback_identity` at the unknown easing
name `swing`. -/
theorem applyEasing_fallback_identity_witness :
    applyEasing (fun q => q) (JSNum.fin (1/2)) "swing" =
      Except.ok (JSVal.num (JSNum.fin (1/2))) :=
  applyEasing_fallback_identity (fun q => q) (JSNum.fin (1/2)) "swing" (by decide)
    (by decide) rfl

/-- Comparisons against a `NaN` right operand are false (proved by
cases because the match on the left operand blocks reduction). -/
theorem JSNum.le_nan (r : JSNum) : JSNum.le r JSNum.nan = false := by
  cases r <;> rfl

/-- Multiplication by `NaN` yields `NaN` for every left operand. -/
theorem JSNum.mul_nan (a : JSNum) : JSNum.mul a JSNum.nan = JSNum.nan := by
  cases a <;> rfl

/-- Multiplication of `NaN` yields `NaN` for every right operand. -/
theorem JSNum.nan_mul (b : JSNum) : JSNum.mul JSNum.nan b = JSNum.nan := by
  cases b <;> rfl

/-- Addition of `NaN` yields `NaN` for every left operand. -/
theorem JSNum.add_nan (a : JSNum) : JSNum.add a JSNum.nan = JSNum.nan := by
  cases a <;> rfl

/-- Addition of `NaN` yields `NaN` for every right operand. -/
theorem JSNum.nan_add (b : JSNum) : JSNum.add JSNum.nan b = JSNum.nan := by
  cases b <;> rfl

/-- A `NaN` left operand makes `<` false for every right operand. -/
theorem JSNum.nan_lt (b : JSNum) : JSNum.lt JSNum.nan b = false := by
  cases b <;> rfl

/-- Division of `NaN` yields `NaN` for every right operand. -/
theorem JSNum.nan_div (b : JSNum) : JSNum.div JSNum.nan b = JSNum.nan := by
  cases b <;> rfl

/-- A `NaN` seed and target make the Newton-Raphson loop return
`NaN`: both tolerance comparisons are false on `NaN`, the iterate
stays `NaN`, and the fuel runs out. -/
theorem newtonLoop_nan (ax bx cx : JSNum) (fuel : ℕ) :
    newtonLoop ax bx cx JSNum.nan fuel JSNum.nan = JSNum.nan := by
  induction fuel with
  | zero => rfl
  | succ n ih =>
      simp only [newtonLoop, JSNum.mul_eq, JSNum.add_eq, JSNum.sub_eq, JSNum.neg_eq,
        JSNum.neg, JSNum.mul_nan, JSNum.nan_add, JSNum.nan_mul, JSNum.add_nan,
        JSNum.nan_div, JSNum.abs, JSNum.nan_lt, Bool.false_eq_true, if_false]
      exact ih

/-- `cubicBezier` maps a `NaN` input fraction to `NaN` for all
control points. -/
theorem cubicBezier_nan (x1 y1 x2 y2 : JSNum) :
    cubicBezier x1 y1 x2 y2 JSNum.nan = JSNum.nan := by
  simp only [cubicBezier, JSNum.mul_eq, JSNum.add_eq, newtonLoop_nan, JSNum.mul_nan,
    JSNum.nan_add, JSNum.nan_mul, JSNum.add_nan]

/-- `bounce` maps `NaN` to `NaN`: every segment comparison is false
on `NaN`, and the last segment's arithmetic propagates it. -/
theorem bounceFn_nan : bounceFn JSNum.nan = JSNum.nan := by
  simp only [bounceFn, JSNum.mul_eq, JSNum.add_eq, JSNum.sub_eq, JSNum.sub,
    JSNum.neg_eq, JSNum.neg, JSNum.nan_lt, JSNum.nan_add, JSNum.mul_nan,
    JSNum.nan_mul, Bool.false_eq_true, if_false]

/-- `elastic` maps `NaN` to `NaN`: neither exact-boundary ternary
matches and the transcendental body on a non-finite input is `NaN`. -/
theorem elasticFn_nan (elasticCore : ℚ → ℚ) :
    elasticFn elasticCore JSNum.nan = JSNum.nan := rfl

/-- For every easing string that does not name an inherited
`Object.prototype` member, the easing of a `NaN` progress is the
number `NaN`: every named curve, every parsed `cubic-bezier` and the
identity fallback propagate `NaN`. -/
theorem applyEasing_nan (ec : ℚ → ℚ) (easing : String)
    (h : easing ∉ objectProtoMembers) :
    applyEasing ec JSNum.nan easing = Except.ok (JSVal.num JSNum.nan) := by
  simp only [objectProtoMembers, List.mem_cons, List.mem_singleton, not_or] at h
  obtain ⟨p1, p2, p3, p4, p5, p6, p7, p8, p9, p10, p11, p12, -⟩ := h
  by_cases h1 : easing = "linear"
  · subst h1; rfl
  by_cases h2 : easing = "ease"
  · subst h2; rfl
  by_cases h3 : easing = "ease-in"
  · subst h3; rfl
  by_cases h4 : easing = "ease-out"
  · subst h4; rfl
  by_cases h5 : easing = "ease-in-out"
  · subst h5; rfl
  by_cases h6 : easing = "bounce"
  · subst h6
    have hb : applyEasing ec JSNum.nan "bounce" =
        Except.ok (JSVal.num (bounceFn JSNum.nan)) := rfl
    rw [hb, bounceFn_nan]
  by_cases h7 : easing = "elastic"
  · subst h7; rfl
  rcases hsb : scanBezier easing.data with - | ⟨x1, y1, x2, y2⟩
  · simp [applyEasing, h1, h2, h3, h4, h5, h6, h7, p1, p2, p3, p4, p5, p6, p7, p8,
      p9, p10, p11, p12, hsb]
  · simp [applyEasing, h1, h2, h3, h4, h5, h6, h7, p1, p2, p3, p4, p5, p6, p7, p8,
      p9, p10, p11, p12, hsb, cubicBezier_nan]

/-- The `progress < 0 || progress > 1` guard of `updateAnimate` fires
on the finished sentinel `2`, so a finished leaf performs no attribute
write and raises no fault, whatever its fill policy, easing or
targets. -/
theorem updateAnimate_finished (ec : ℚ → ℚ) (anim : AnimateLeaf) (time : ℚ)
    (targets : List TargetH) (h : calculateProgress anim time = JSNum.fin 2) :
    updateAnimate ec anim time targets = Except.ok [] := by
  unfold updateAnimate
  rw [h]
  split
  · rfl
  · norm_num [JSNum.lt, JSNum.gt]

/-- The guard of `updateAnimate` fires on the not-started sentinel
`-1`, so a not-yet-started leaf performs no attribute write and
raises no fault. -/
theorem updateAnimate_notStarted (ec : ℚ → ℚ) (anim : AnimateLeaf) (time : ℚ)
    (targets : List TargetH) (h : calculateProgress anim time = JSNum.fin (-1)) :
    updateAnimate ec anim time targets = Except.ok [] := by
  unfold updateAnimate
  rw [h]
  split
  · rfl
  · norm_num [JSNum.lt, JSNum.gt]

/-- A `NaN` progress value passes the `progress < 0 || progress > 1`
guard (both comparisons are false on `NaN`), so — provided the easing
string does not dispatch into an inherited `Object.prototype`
member — `updateAnimate` proceeds to interpolate and writes the
`NaN`-propagated value `from + (to − from) × NaN = NaN` to every
target. -/
theorem updateAnimate_nan (ec : ℚ → ℚ) (anim : AnimateLeaf) (time : ℚ)
    (targets : List TargetH) (h : calculateProgress anim time = JSNum.nan)
    (hnp : anim.easing ∉ objectProtoMembers) :
    updateAnimate ec anim time targets =
      Except.ok (targets.map (fun _ => JSNum.nan)) := by
  cases targets with
  | nil => rfl
  | cons t ts =>
      have e1 : JSNum.lt JSNum.nan (JSNum.fin 0) = false := rfl
      have e2 : JSNum.gt JSNum.nan (JSNum.fin 1) = false := rfl
      simp [updateAnimate, h, e1, e2, applyEasing_nan ec anim.easing hnp,
        JSVal.toNumber, JSNum.mul_nan, JSNum.add_nan]

/-- An `<animate>` leaf with `fill="freeze"`, duration 1 s and repeat
count 1, already finished at the sampled time 2 s. -/
def frzAnim : AnimateLeaf :=
  { target := "#r", attr := "x", fromVal := some 0, toVal := some 10, byVal := none,
    start := 0, duration := 1, easing := "linear", repeatN := JSNum.fin 1,
    reverse := false, fill := "freeze", idOpt := none }

/-- Claim C1 (counterexample): a finished leaf with fill policy
`freeze` is not re-emitted — at time 2 s the evaluator returns the
finished sentinel and `updateAnimate` performs no attribute write at
all, contradicting the claimed freeze re-emission of the final
value. -/
theorem freeze_reemission_counterexample :
    frzAnim.fill = "freeze" ∧
    calculateProgress frzAnim 2 = JSNum.fin 2 ∧
    updateAnimate (fun q => q) frzAnim 2 [⟨some 5⟩] = Except.ok [] := by
  have hp : calculateProgress frzAnim 2 = JSNum.fin 2 := by
    norm_num [calculateProgress, frzAnim, JSNum.div, JSNum.floor, JSNum.ge, JSNum.le]
  exact ⟨rfl, hp, updateAnimate_finished (fun q => q) frzAnim 2 [⟨some 5⟩] hp⟩

/-- Claim C1 (amended): for every leaf whose iteration index
`floor((time − start) / duration)` is `≥` its repeat count at a
non-negative relative time, `calculateProgress` returns the finished
sentinel `2` and `updateAnimate` performs no attribute write —
regardless of the fill policy: the parsed `fill` attribute is never
consulted by the update path, so `freeze` behaves exactly like
`none` and no final value is ever re-emitted. -/
theorem finished_leaf_never_rewritten (ec : ℚ → ℚ) (anim : AnimateLeaf) (time : ℚ)
    (targets : List TargetH)
    (h1 : 0 ≤ time - anim.start)
    (h2 : JSNum.ge
        ((JSNum.div (JSNum.fin (time - anim.start)) (JSNum.fin anim.duration)).floor)
        anim.repeatN = true) :
    calculateProgress anim time = JSNum.fin 2 ∧
    updateAnimate ec anim time targets = Except.ok [] := by
  have hp : calculateProgress anim time = JSNum.fin 2 := by
    simp only [calculateProgress]
    rw [if_neg (not_lt.2 h1), if_pos h2]
  exact ⟨hp, updateAnimate_finished ec anim time targets hp⟩

/-- Witness for `finished_leaf_never_rewritten` at the concrete
freeze leaf and time 2 s. -/
theorem finished_leaf_never_rewritten_witness :
    calculateProgress frzAnim 3 = JSNum.fin 2 ∧
    updateAnimate (fun q => q) frzAnim 3 [⟨some 5⟩, ⟨none⟩] = Except.ok [] :=
  finished_leaf_never_rewritten (fun q => q) frzAnim 3 [⟨some 5⟩, ⟨none⟩]
    (by norm_num [frzAnim])
    (by norm_num [frzAnim, JSNum.div, JSNum.floor, JSNum.ge, JSNum.le])

/-- An `<animate>` leaf with duration 0 starting at time 0. -/
def zAnim : AnimateLeaf :=
  { target := "#r", attr := "x", fromVal := some 0, toVal := some 10, byVal := none,
    start := 0, duration := 0, easing := "linear", repeatN := JSNum.fin 1,
    reverse := false, fill := "none", idOpt := none }

/-- Claim C2 (counterexample): a zero-duration leaf sampled at a
strictly later time does not yield Active status with progress `1`
and does not perform a write with progress `1`: the unguarded
division `relative / 0` yields `Infinity`, the iteration comparison
declares the leaf finished (sentinel `2`), and the guard of
`updateAnimate` suppresses the write entirely. -/
theorem zero_duration_counterexample :
    zAnim.duration = 0 ∧
    calculateProgress zAnim 1 = JSNum.fin 2 ∧
    JSNum.fin 2 ≠ JSNum.fin 1 ∧
    updateAnimate (fun q => q) zAnim 1 [⟨some 5⟩] = Except.ok [] := by
  have hp : calculateProgress zAnim 1 = JSNum.fin 2 := by
    norm_num [calculateProgress, zAnim, JSNum.div, JSNum.floor, JSNum.ge, JSNum.le]
  refine ⟨rfl, hp, by norm_num, updateAnimate_finished (fun q => q) zAnim 1 [⟨some 5⟩] hp⟩

/-- Claim C2 (amended): a zero duration is not specially guarded.
For a leaf whose repeat count parsed to a number or `Infinity` (not
`NaN`), a strictly positive relative time makes `relative / 0`
evaluate to `Infinity`, the leaf counts as finished (sentinel `2`)
and no write is performed; at relative time exactly `0` the division
`0 / 0` yields `NaN`, which passes the `progress < 0 || progress > 1`
guard, so — provided the easing string does not name an inherited
`Object.prototype` member, in which case the prototype-chain dispatch
can itself throw a `TypeError` before any write — the easing
propagates the `NaN` and a `NaN`-valued write is performed for every
resolved target, with no fault raised. -/
theorem zero_duration_semantics (ec : ℚ → ℚ) (anim : AnimateLeaf) (time : ℚ)
    (targets : List TargetH) (hd : anim.duration = 0) (hr : anim.repeatN ≠ JSNum.nan)
    (hnp : anim.easing ∉ objectProtoMembers) :
    (0 < time - anim.start →
      calculateProgress anim time = JSNum.fin 2 ∧
      updateAnimate ec anim time targets = Except.ok []) ∧
    (time - anim.start = 0 →
      calculateProgress anim time = JSNum.nan ∧
      updateAnimate ec anim time targets =
        Except.ok (targets.map (fun _ => JSNum.nan))) := by
  have hge : ∀ r : JSNum, r ≠ JSNum.nan → JSNum.ge JSNum.posInf r = true := by
    intro r hrr
    cases r with
    | fin q => rfl
    | posInf => rfl
    | negInf => rfl
    | nan => exact absurd rfl hrr
  constructor
  · intro h
    have hp : calculateProgress anim time = JSNum.fin 2 := by
      simp only [calculateProgress, hd]
      rw [if_neg (not_lt.2 h.le)]
      have hdiv : JSNum.div (JSNum.fin (time - anim.start)) (JSNum.fin 0) = JSNum.posInf := by
        simp [JSNum.div, h.ne', h]
      rw [hdiv]
      have hfloor : JSNum.posInf.floor = JSNum.posInf := rfl
      rw [hfloor, if_pos (hge anim.repeatN hr)]
    exact ⟨hp, updateAnimate_finished ec anim time targets hp⟩
  · intro h
    have hp : calculateProgress anim time = JSNum.nan := by
      simp only [calculateProgress, hd, h]
      norm_num [JSNum.div, JSNum.mod, JSNum.floor, JSNum.ge, JSNum.le_nan, JSNum.eqb]
    exact ⟨hp, updateAnimate_nan ec anim time targets hp hnp⟩

/-- Witness for `zero_duration_semantics` at the concrete
zero-duration leaf, both at relative time `1` and at relative time
`0`. -/
theorem zero_duration_semantics_witness :
    calculateProgress zAnim 1 = JSNum.fin 2 ∧
    calculateProgress zAnim 0 = JSNum.nan := by
  have h := zero_duration_semantics (fun q => q) zAnim 0 [⟨some 5⟩] rfl (by simp [zAnim])
    (by decide)
  have h1 := zero_duration_semantics (fun q => q) zAnim 1 [⟨some 5⟩] rfl (by simp [zAnim])
    (by decide)
  exact ⟨(h1.1 (by norm_num [zAnim])).1, (h.2 (by norm_num [zAnim])).1⟩

/-- A playing engine: rate 1, origin 0 ms, total duration 100 s, no
loop. -/
def demoEngine : EngineState :=
  { playing := true, currentTime := 0, duration := 100, playbackRate := 1,
    loopOpt := false, startTime := 0 }

/-- A per-tick update that evaluates without fault. -/
def noFaultUpdate : ℚ → Option String := fun _ => none

/-- A per-tick update that throws. -/
def boomUpdate : ℚ → Option String := fun _ => some "boom"

/-- Claim C3 (counterexample): changing the playback rate does not
preserve the observed current time.  With origin 0 and rate 1, the
tick at wall clock 1000 ms observes 1 s; after `setRate(2)` the tick
at the same instant observes 2 s, because the origin is not
recomputed and the whole elapsed interval is rescaled. -/
theorem setPlaybackRate_counterexample :
    (animate demoEngine 1000 noFaultUpdate).state.currentTime = 1 ∧
    (animate (setPlaybackRate demoEngine 2) 1000 noFaultUpdate).state.currentTime = 2 ∧
    (1 : ℚ) ≠ 2 := by
  refine ⟨?_, ?_, by norm_num⟩
  · norm_num [animate, runUpdate, demoEngine, noFaultUpdate]
  · norm_num [animate, runUpdate, setPlaybackRate, demoEngine, noFaultUpdate]

/-- Claim C3 (amended): the `playbackRate` setter assigns the rate
field and nothing else — the stored `currentTime` and origin
`_startTime` are untouched at the moment of the call, so the next
tick recomputes `currentTime = (now − origin) / 1000 × newRate`,
retroactively rescaling the entire elapsed interval by the new rate
instead of preserving the previously observed current time. -/
theorem setPlaybackRate_semantics (s : EngineState) (r now : ℚ)
    (update : ℚ → Option String) (hp : s.playing = true)
    (hlt : (now - s.startTime) / 1000 * r < s.duration) :
    (setPlaybackRate s r).currentTime = s.currentTime ∧
    (setPlaybackRate s r).startTime = s.startTime ∧
    (setPlaybackRate s r).playing = s.playing ∧
    (setPlaybackRate s r).playbackRate = r ∧
    (animate (setPlaybackRate s r) now update).state.currentTime =
      (now - s.startTime) / 1000 * r := by
  refine ⟨rfl, rfl, rfl, rfl, ?_⟩
  obtain ⟨pl, ct, du, ra, lo, st⟩ := s
  dsimp only at hp hlt
  subst hp
  simp only [animate, setPlaybackRate]
  rw [if_neg (by simp)]
  rw [if_neg (not_le.2 hlt)]
  unfold runUpdate
  cases update ((now - st) / 1000 * r) <;> rfl

/-- Witness for `setPlaybackRate_semantics`: the rescaled tick value
at the concrete engine. -/
theorem setPlaybackRate_semantics_witness :
    (animate (setPlaybackRate demoEngine 2) 1000 noFaultUpdate).state.currentTime = 2 := by
  have h := setPlaybackRate_semantics demoEngine 2 1000 noFaultUpdate rfl
    (by norm_num [demoEngine])
  rw [h.2.2.2.2]
  norm_num [demoEngine]

/-- A document surrogate resolving every selector to handle `1`. -/
def doc1 : String → List ℕ := fun _ => [1]

/-- A document surrogate resolving every selector to handle `2`. -/
def doc2 : String → List ℕ := fun _ => [2]

/-- Claim C4 (counterexample): the target cache is not invalidated on
rebuild.  After resolving `#a` against the first document (caching
`[1]`) and rebuilding with a second document in which `#a` resolves to
`[2]`, resolving `#a` again still returns the stale cached `[1]`
rather than reflecting the new document. -/
theorem resolver_stale_cache_counterexample :
    (getTargets (parseElementDoc (getTargets ⟨some doc1, []⟩ "#a").2 doc2) "#a").1 = [1] ∧
    doc2 "#a" = [2] ∧
    ([1] : List ℕ) ≠ [2] := ⟨rfl, rfl, by decide⟩

/-- Claim C4 (amended): `getTargets` memoizes by selector string —
two resolves of the same selector return the same list — and a
selector matching zero targets is not an error (the update step is
simply skipped); but the cache is never invalidated when the timeline
or document is rebuilt: `parseElement` and `setState` leave
`targetCache` untouched (only `destroy` clears it), so a selector
cached before a rebuild keeps resolving to its pre-rebuild list
regardless of the new document. -/
theorem resolver_semantics :
    (∀ (s : ResolverState) (sel : String),
      (getTargets (getTargets s sel).2 sel).1 = (getTargets s sel).1) ∧
    (∀ (ec : ℚ → ℚ) (anim : AnimateLeaf) (time : ℚ),
      updateAnimate ec anim time [] = Except.ok []) ∧
    (∀ (s : ResolverState) (d : String → List ℕ) (sel : String) (l : List ℕ),
      cacheLookup s.targetCache sel = some l → sel ≠ "" →
      (getTargets (parseElementDoc s d) sel).1 = l) := by
  refine ⟨?_, ?_, ?_⟩
  · intro s sel
    by_cases hsel : sel = ""
    · simp [getTargets, hsel]
    · cases hsvg : s.svgContent with
      | none => simp [getTargets, hsel, hsvg]
      | some doc =>
          cases hc : cacheLookup s.targetCache sel with
          | some ts => simp [getTargets, hsel, hsvg, hc]
          | none => simp [getTargets, hsel, hsvg, hc, cacheLookup]
  · intro ec anim time
    rfl
  · intro s d sel l hc hsel
    simp [getTargets, parseElementDoc, hsel, hc]

/-- Witness for `resolver_semantics`: a cached selector survives a
rebuild with a document that resolves it differently. -/
theorem resolver_semantics_witness :
    (getTargets (parseElementDoc ⟨some doc1, [("#a", [7])]⟩ doc2) "#a").1 = [7] :=
  resolver_semantics.2.2 ⟨some doc1, [("#a", [7])]⟩ doc2 "#a" [7] rfl (by decide)

/-- Claim C5 (counterexample): a fault thrown by the per-tick update
is not caught at the tick boundary: it propagates out of `animate`
uncaught, no `error` event is emitted (the event list is empty),
playback does not transition to paused (`playing` stays `true`), and
no further tick is scheduled. -/
theorem tick_fault_counterexample :
    (animate demoEngine 1000 boomUpdate).fault = some "boom" ∧
    (animate demoEngine 1000 boomUpdate).state.playing = true ∧
    (animate demoEngine 1000 boomUpdate).events = [] ∧
    (animate demoEngine 1000 boomUpdate).scheduled = false := by
  norm_num [animate, runUpdate, demoEngine, boomUpdate]

/-- Claim C5 (amended): there is no `try`/`catch` on the tick path —
for every playing state whose tick stays inside the timeline, a fault
thrown by the per-tick update escapes the tick callback uncaught, no
event (in particular no `error` event) is emitted, `playing` remains
`true` (no transition to paused), and no further tick is scheduled,
so playback silently halts. -/
theorem tick_fault_semantics (s : EngineState) (now : ℚ) (update : ℚ → Option String)
    (f : String) (hp : s.playing = true)
    (hlt : (now - s.startTime) / 1000 * s.playbackRate < s.duration)
    (hu : update ((now - s.startTime) / 1000 * s.playbackRate) = some f) :
    (animate s now update).fault = some f ∧
    (animate s now update).state.playing = true ∧
    (animate s now update).events = [] ∧
    (animate s now update).scheduled = false := by
  obtain ⟨pl, ct, du, ra, lo, st⟩ := s
  dsimp only at hp hlt hu
  subst hp
  simp only [animate]
  rw [if_neg (by simp)]
  rw [if_neg (not_le.2 hlt)]
  unfold runUpdate
  dsimp only
  rw [hu]
  exact ⟨rfl, rfl, rfl, rfl⟩

/-- Witness for `tick_fault_semantics` at the concrete engine and the
throwing update. -/
theorem tick_fault_semantics_witness :
    (animate demoEngine 1000 boomUpdate).fault = some "boom" :=
  (tick_fault_semantics demoEngine 1000 boomUpdate "boom" rfl
    (by norm_num [demoEngine]) rfl).1

/-- Subtraction of finite JavaScript numbers is rational
subtraction. -/
theorem JSNum.fin_sub (a b : ℚ) : JSNum.fin a - JSNum.fin b = JSNum.fin (a - b) := by
  simp [JSNum.sub, JSNum.add, JSNum.neg, sub_eq_add_neg]

/-- For a leaf with positive duration, a non-negative relative time
and an iteration index strictly below the repeat count, the raw
progress `(relative % duration) / duration` is a rational in `[0, 1)`
and the reverse-parity flip maps it into `(0, 1]`; in both cases the
value `calculateProgress` returns is a finite rational in `[0, 1]`. -/
theorem calculateProgress_pos_duration (anim : AnimateLeaf) (time : ℚ)
    (hdur : 0 < anim.duration) (hrel : 0 ≤ time - anim.start)
    (hge : JSNum.ge (JSNum.fin (⌊(time - anim.start) / anim.duration⌋ : ℚ))
      anim.repeatN = false) :
    ∃ q : ℚ, calculateProgress anim time = JSNum.fin q ∧ 0 ≤ q ∧ q ≤ 1 := by
  have hdne : anim.duration ≠ 0 := ne_of_gt hdur
  have hq0 : (0 : ℚ) ≤ (time - anim.start) / anim.duration := div_nonneg hrel hdur.le
  have htr : ratTrunc ((time - anim.start) / anim.duration) =
      ⌊(time - anim.start) / anim.duration⌋ := if_pos hq0
  have hraw : (time - anim.start -
        anim.duration * (⌊(time - anim.start) / anim.duration⌋ : ℚ)) / anim.duration =
      (time - anim.start) / anim.duration - (⌊(time - anim.start) / anim.duration⌋ : ℚ) := by
    rw [sub_div, mul_div_cancel_left₀ _ hdne]
  have hfl := Int.floor_le ((time - anim.start) / anim.duration)
  have hfu := Int.lt_floor_add_one ((time - anim.start) / anim.duration)
  simp only [calculateProgress]
  rw [if_neg (not_lt.2 hrel)]
  simp only [JSNum.div, JSNum.mod, JSNum.floor, hdne, if_false, htr]
  rw [if_neg (by simp [hge])]
  rw [hraw]
  simp only [show ((2 : ℚ) = 0) = False from by norm_num, if_false]
  split
  · rw [JSNum.fin_sub]
    exact ⟨1 - ((time - anim.start) / anim.duration -
      (⌊(time - anim.start) / anim.duration⌋ : ℚ)), rfl, by linarith, by linarith⟩
  · exact ⟨(time - anim.start) / anim.duration -
      (⌊(time - anim.start) / anim.duration⌋ : ℚ), rfl, by linarith, by linarith⟩

/-- The reverse-parity example leaf of the claim: duration 1 s,
reverse on, repeat 2, starting at 0. -/
def revAnim : AnimateLeaf :=
  { target := "#c", attr := "r", fromVal := some 0, toVal := some 1, byVal := none,
    start := 0, duration := 1, easing := "linear", repeatN := JSNum.fin 2,
    reverse := true, fill := "none", idOpt := none }

/-- Claim C8 (counterexample): at duration 0 and relative time 0 the
progress handed to the easing function is `NaN` — not a value in
`[0, 1]` — yet interpolation is performed: the `NaN` passes the
`progress < 0 || progress > 1` guard and a `NaN`-valued attribute
write is emitted. -/
theorem progress_nan_counterexample :
    calculateProgress zAnim 0 = JSNum.nan ∧
    JSNum.lt JSNum.nan (JSNum.fin 0) = false ∧
    JSNum.gt JSNum.nan (JSNum.fin 1) = false ∧
    applyEasing (fun q => q) JSNum.nan zAnim.easing = Except.ok (JSVal.num JSNum.nan) ∧
    updateAnimate (fun q => q) zAnim 0 [⟨some 5⟩] = Except.ok [JSNum.nan] := by
  have hp : calculateProgress zAnim 0 = JSNum.nan := by
    simp only [calculateProgress, zAnim]
    norm_num [JSNum.div, JSNum.mod, JSNum.floor, JSNum.ge, JSNum.le_nan, JSNum.eqb]
  exact ⟨hp, rfl, rfl, rfl,
    updateAnimate_nan (fun q => q) zAnim 0 [⟨some 5⟩] hp (by decide)⟩

/-- Claim C8 (amended): a leaf with negative relative time reports
the not-started sentinel and performs no write; for every leaf with
strictly positive duration, whenever the `progress < 0 ||
progress > 1` guard admits the progress value, that value is a finite
rational within `[0, 1]` (pre-easing), including under the
reverse-parity rule (duration 1 s, reverse, t = 1.25 s gives 0.75);
the `[0, 1]` bound fails only in the unguarded zero-duration corner,
where the progress is `NaN`. -/
theorem progress_range_semantics (ec : ℚ → ℚ) (anim : AnimateLeaf) (time : ℚ)
    (targets : List TargetH) :
    (time - anim.start < 0 →
      calculateProgress anim time = JSNum.fin (-1) ∧
      updateAnimate ec anim time targets = Except.ok []) ∧
    (0 < anim.duration →
      JSNum.lt (calculateProgress anim time) (JSNum.fin 0) = false →
      JSNum.gt (calculateProgress anim time) (JSNum.fin 1) = false →
      ∃ q : ℚ, calculateProgress anim time = JSNum.fin q ∧ 0 ≤ q ∧ q ≤ 1) ∧
    calculateProgress revAnim (5/4) = JSNum.fin (3/4) := by
  refine ⟨?_, ?_, ?_⟩
  · intro h
    have hp : calculateProgress anim time = JSNum.fin (-1) := by
      simp only [calculateProgress]
      rw [if_pos h]
    exact ⟨hp, updateAnimate_notStarted ec anim time targets hp⟩
  · intro hdur hlt hgt
    by_cases hrel : time - anim.start < 0
    · exfalso
      have hp : calculateProgress anim time = JSNum.fin (-1) := by
        simp only [calculateProgress]
        rw [if_pos hrel]
      rw [hp] at hlt
      norm_num [JSNum.lt] at hlt
    · push_neg at hrel
      have hdne : anim.duration ≠ 0 := ne_of_gt hdur
      by_cases hge : JSNum.ge (JSNum.fin (⌊(time - anim.start) / anim.duration⌋ : ℚ))
          anim.repeatN = true
      · exfalso
        have hp : calculateProgress anim time = JSNum.fin 2 := by
          simp only [calculateProgress]
          rw [if_neg (not_lt.2 hrel)]
          simp only [JSNum.div, JSNum.floor, hdne, if_false]
          rw [if_pos hge]
        rw [hp] at hgt
        norm_num [JSNum.gt, JSNum.lt] at hgt
      · exact calculateProgress_pos_duration anim time hdur hrel
          (Bool.eq_false_iff.2 hge)
  · norm_num [calculateProgress, revAnim, JSNum.div, JSNum.mod, JSNum.floor, JSNum.ge,
      JSNum.le, JSNum.eqb, JSNum.sub, JSNum.add, JSNum.neg, ratTrunc]

/-- Witness for `progress_range_semantics`: the not-started case at a
concrete negative relative time. -/
theorem progress_range_semantics_witness :
    calculateProgress revAnim (-1) = JSNum.fin (-1) ∧
    updateAnimate (fun q => q) revAnim (-1) [⟨some 5⟩] = Except.ok [] :=
  (progress_range_semantics (fun q => q) revAnim (-1) [⟨some 5⟩]).1
    (by norm_num [revAnim])
